import Mathlib

/-!
Verification of `src/attributes/notification.rs` from the `ancs` crate:
the `NotificationAttributeID` enumeration, its conversions to and from the
single-byte wire code, the one-byte `parse` function built on
`nom::number::complete::le_u8`, and the `is_sized` classification.

Bytes are modelled as `Nat` (a `u8` value is a `Nat` below 256); byte
slices as `List Nat`; Rust `Result` as `Except`; and the relevant part of
`nom`'s error machinery (`nom::Err`, `nom::error::Error`, the error kinds
this module can produce) is embedded explicitly.
-/

namespace Ancs

/-- The subset of `nom::error::ErrorKind` reachable from this module:
`Eof` (produced by `complete::le_u8` on short input) and `Fail`
(produced by `parse` on an unrecognized code). -/
inductive ErrorKind where
  | Eof
  | Fail
deriving DecidableEq, Repr

/-- `nom::error::Error<&[u8]>`: the default error type of `IResult`,
carrying the input position and an error kind.  `from_error_kind(input,
kind)` is exactly the anonymous constructor. -/
structure NomError where
  input : List Nat
  code : ErrorKind
deriving DecidableEq, Repr

/-- `nom::Needed`: how much more data an incomplete streaming parse wants. -/
inductive Needed where
  | Unknown
  | Size (n : Nat)
deriving DecidableEq, Repr

/-- `nom::Err<E>` specialized to `E = NomError`: the three-way failure type
of `IResult` — `Incomplete` (streaming), recoverable `Error`, and
non-recoverable `Failure`. -/
inductive Err where
  | Incomplete (needed : Needed)
  | Error (e : NomError)
  | Failure (e : NomError)
deriving DecidableEq, Repr

/-- The eight `NotificationAttributeID` variants from the source enum. -/
inductive NotificationAttributeID where
  | AppIdentifier
  | Title
  | Subtitle
  | Message
  | MessageSize
  | Date
  | PositiveActionLabel
  | NegativeActionLabel
deriving DecidableEq, Repr

/-- `NotificationAttributeIDError`: the unit error struct returned by
`TryFrom<u8>` on an unrecognized code. -/
structure NotificationAttributeIDError where
deriving DecidableEq, Repr

namespace NotificationAttributeID

/-- `impl From<NotificationAttributeID> for u8`, `fn from` (the forward
mapping; named `u8_from` because `from` is reserved in Lean). -/
def u8_from (original : NotificationAttributeID) : Nat :=
  match original with
  | .AppIdentifier => 0
  | .Title => 1
  | .Subtitle => 2
  | .Message => 3
  | .MessageSize => 4
  | .Date => 5
  | .PositiveActionLabel => 6
  | .NegativeActionLabel => 7

/-- `impl TryFrom<u8> for NotificationAttributeID`, `fn try_from`
(the reverse mapping). -/
def try_from (original : Nat) : Except NotificationAttributeIDError NotificationAttributeID :=
  match original with
  | 0 => .ok .AppIdentifier
  | 1 => .ok .Title
  | 2 => .ok .Subtitle
  | 3 => .ok .Message
  | 4 => .ok .MessageSize
  | 5 => .ok .Date
  | 6 => .ok .PositiveActionLabel
  | 7 => .ok .NegativeActionLabel
  | _ => .error ⟨⟩

/-- `nom::number::complete::le_u8`: if fewer than one byte remains it
fails with a recoverable `Err::Error` of kind `Eof` carrying the original
input; otherwise it returns the first byte and the input advanced past it. -/
def le_u8 (input : List Nat) : Except Err (List Nat × Nat) :=
  match input with
  | [] => .error (.Error ⟨[], .Eof⟩)
  | b :: rest => .ok (rest, b)

/-- `NotificationAttributeID::parse`: reads one byte with `le_u8`
(propagating its failure via `?`), applies `try_from`, and on an
unrecognized code returns `Err::Failure(Error::from_error_kind(i,
ErrorKind::Fail))` where `i` is the already-advanced input. -/
def parse (i : List Nat) : Except Err (List Nat × NotificationAttributeID) :=
  match le_u8 i with
  | .error e => .error e
  | .ok (i, notification_attribute_id) =>
    match try_from notification_attribute_id with
    | .ok notification_attribute_id => .ok (i, notification_attribute_id)
    | .error _ => .error (.Failure ⟨i, .Fail⟩)

/-- `NotificationAttributeID::is_sized`. -/
def is_sized (id : NotificationAttributeID) : Bool :=
  match id with
  | .Title => true
  | .Subtitle => true
  | .Message => true
  | _ => false

end NotificationAttributeID

/-- Decidable equality for `Except`, so that concrete results of
`try_from` and `parse` can be compared by `decide`. -/
instance {ε α : Type} [DecidableEq ε] [DecidableEq α] : DecidableEq (Except ε α)
  | .ok a, .ok b => if h : a = b then .isTrue (by rw [h]) else .isFalse (by simp [h])
  | .ok _, .error _ => .isFalse (by simp)
  | .error _, .ok _ => .isFalse (by simp)
  | .error e, .error f => if h : e = f then .isTrue (by rw [h]) else .isFalse (by simp [h])

namespace NotificationAttributeID

/-- Any code of 8 or more falls into the wildcard arm of `try_from`. -/
theorem try_from_ge_eight (b : Nat) (h : 8 ≤ b) : try_from b = .error ⟨⟩ := by
  obtain ⟨k, rfl⟩ : ∃ k, b = k + 8 := ⟨b - 8, by omega⟩
  rfl

/-- `parse` on a nonempty input is `try_from` on the head, with the error
arm rebuilt around the advanced input. -/
theorem parse_cons (b : Nat) (rest : List Nat) :
    parse (b :: rest) =
      match try_from b with
      | .ok id => .ok (rest, id)
      | .error _ => .error (.Failure ⟨rest, .Fail⟩) := rfl

/-- C1: the reverse mapping `try_from` is exhaustively correct: each byte
0–7 yields the table-assigned variant, and every byte 8–255 yields the
`NotificationAttributeIDError` (InvalidValue) error; it is total over all
256 byte values. -/
theorem try_from_exhaustive :
    try_from 0 = .ok .AppIdentifier ∧
    try_from 1 = .ok .Title ∧
    try_from 2 = .ok .Subtitle ∧
    try_from 3 = .ok .Message ∧
    try_from 4 = .ok .MessageSize ∧
    try_from 5 = .ok .Date ∧
    try_from 6 = .ok .PositiveActionLabel ∧
    try_from 7 = .ok .NegativeActionLabel ∧
    (∀ b : Nat, 8 ≤ b → b ≤ 255 → try_from b = .error ⟨⟩) :=
  ⟨rfl, rfl, rfl, rfl, rfl, rfl, rfl, rfl, fun b h _ => try_from_ge_eight b h⟩

/-- Witness for C1 at the concrete out-of-range byte 200. -/
theorem try_from_exhaustive_witness : try_from 200 = .error ⟨⟩ :=
  try_from_exhaustive.2.2.2.2.2.2.2.2 200 (by decide) (by decide)

/-- C2: round-trip — decoding the wire byte of any variant recovers that
variant. -/
theorem try_from_u8_from (v : NotificationAttributeID) :
    try_from (u8_from v) = .ok v := by
  cases v <;> rfl

/-- C3: on any input whose first byte is 8–255, `parse` fails with the
non-recoverable `Err::Failure` (InvalidValue) case, not with the
recoverable empty-input case and not with `Err::Incomplete`. -/
theorem parse_invalid_byte (b : Nat) (rest : List Nat) (h8 : 8 ≤ b)
    (_h255 : b ≤ 255) :
    parse (b :: rest) = .error (.Failure ⟨rest, .Fail⟩) ∧
    (∀ e, parse (b :: rest) ≠ .error (.Error e)) ∧
    (∀ n, parse (b :: rest) ≠ .error (.Incomplete n)) := by
  rw [parse_cons, try_from_ge_eight b h8]
  exact ⟨rfl, fun e h => by simp at h, fun n h => by simp at h⟩

/-- Witness for C3 on the spec buffer `[200]`. -/
theorem parse_invalid_byte_witness :
    parse [200] = .error (.Failure ⟨[], .Fail⟩) :=
  (parse_invalid_byte 200 [] (by decide) (by decide)).1

/-- C4: on empty input `parse` fails with the empty-input cause — the
recoverable `Err::Error` of kind `Eof` — not with the InvalidValue cause,
and the two causes are distinct typed variants of the error type. -/
theorem parse_empty :
    parse [] = .error (.Error ⟨[], .Eof⟩) ∧
    parse [] ≠ .error (.Failure ⟨[], .Fail⟩) ∧
    Err.Error ⟨[], .Eof⟩ ≠ Err.Failure ⟨[], .Fail⟩ := by
  refine ⟨rfl, by decide, by decide⟩

/-- C5: on any input whose first byte is 0–7, `parse` succeeds with the
identifier the reverse mapping assigns to that byte and the input advanced
past exactly one byte; concretely, `[0, 1]` yields `AppIdentifier` with
`[1]` left, and `[1, 2, 3]` leaves exactly `[2, 3]`. -/
theorem parse_in_range (b : Nat) (rest : List Nat) (h : b < 8) :
    (∃ id, try_from b = .ok id ∧ parse (b :: rest) = .ok (rest, id)) ∧
    parse [0, 1] = .ok ([1], .AppIdentifier) ∧
    parse [1, 2, 3] = .ok ([2, 3], .Title) := by
  refine ⟨?_, rfl, rfl⟩
  interval_cases b <;> exact ⟨_, rfl, rfl⟩

/-- Witness for C5 at the spec buffer `[0, 1]`. -/
theorem parse_in_range_witness :
    (∃ id, try_from 0 = .ok id ∧ parse (0 :: [1]) = .ok ([1], id)) ∧
    parse [0, 1] = .ok ([1], .AppIdentifier) ∧
    parse [1, 2, 3] = .ok ([2, 3], .Title) :=
  parse_in_range 0 [1] (by decide)

/-- C6: `is_sized` is true exactly on `Title`, `Subtitle` and `Message`
and false on the other five variants. -/
theorem is_sized_table :
    is_sized .Title = true ∧
    is_sized .Subtitle = true ∧
    is_sized .Message = true ∧
    is_sized .AppIdentifier = false ∧
    is_sized .MessageSize = false ∧
    is_sized .Date = false ∧
    is_sized .PositiveActionLabel = false ∧
    is_sized .NegativeActionLabel = false := by
  decide

/-- C7: in every outcome, `parse` consumes at most one byte: a success
returns the tail of the input, a recoverable error carries the original
input (it only arises on empty input), a hard failure carries the tail,
and `Incomplete` never occurs — all later bytes stay untouched. -/
theorem parse_at_most_one_byte (i : List Nat) :
    (∀ rem id, parse i = .ok (rem, id) → rem = i.tail) ∧
    (∀ e, parse i = .error (.Error e) → e.input = i) ∧
    (∀ e, parse i = .error (.Failure e) → e.input = i.tail) ∧
    (∀ n, parse i ≠ .error (.Incomplete n)) := by
  match i with
  | [] =>
    refine ⟨?_, ?_, ?_, ?_⟩
    · intro rem id h
      cases h
    · intro e h
      cases h
      rfl
    · intro e h
      cases h
    · intro n h
      cases h
  | b :: rest =>
    rw [parse_cons b rest]
    rcases hb : try_from b with e | id
    · refine ⟨?_, ?_, ?_, ?_⟩
      · intro rem id h
        cases h
      · intro e h
        cases h
      · intro e h
        cases h
        rfl
      · intro n h
        cases h
    · refine ⟨?_, ?_, ?_, ?_⟩
      · intro rem id h
        cases h
        rfl
      · intro e h
        cases h
      · intro e h
        cases h
      · intro n h
        cases h

/-- Witness for C7: on the failing buffer `[200]`, the input carried in
the failure is the tail `[]`. -/
theorem parse_at_most_one_byte_witness :
    (⟨[], ErrorKind.Fail⟩ : NomError).input = List.tail [200] :=
  (parse_at_most_one_byte [200]).2.2.1 ⟨[], .Fail⟩ rfl

/-- C8: the forward mapping `u8_from` is injective (and total, being a
Lean function on the whole enumeration). -/
theorem u8_from_injective (v w : NotificationAttributeID)
    (h : u8_from v = u8_from w) : v = w := by
  cases v <;> cases w <;> revert h <;> decide

/-- Witness for C8 at a concrete pair of variants. -/
theorem u8_from_injective_witness :
    NotificationAttributeID.Date = NotificationAttributeID.Date :=
  u8_from_injective .Date .Date rfl

/-- C9: `parse` never returns `Err::Incomplete`: the empty-input
condition is reported through the recoverable `Err::Error` variant with
kind `Eof`, and an unrecognized byte through the non-recoverable
`Err::Failure` variant with kind `Fail`. -/
theorem parse_never_incomplete :
    (∀ (i : List Nat) (n : Needed), parse i ≠ .error (.Incomplete n)) ∧
    parse [] = .error (.Error ⟨[], .Eof⟩) ∧
    (∀ (b : Nat) (rest : List Nat), 8 ≤ b → b ≤ 255 →
      parse (b :: rest) = .error (.Failure ⟨rest, .Fail⟩)) := by
  refine ⟨?_, rfl, ?_⟩
  · intro i n h
    match i with
    | [] => cases h
    | b :: rest =>
      rw [parse_cons b rest] at h
      rcases hb : try_from b with e | id <;> rw [hb] at h <;> cases h
  · intro b rest h8 _
    rw [parse_cons b rest, try_from_ge_eight b h8]

/-- Witness for C9 at the concrete buffer `[200, 5]`. -/
theorem parse_never_incomplete_witness :
    parse [200, 5] = .error (.Failure ⟨[5], .Fail⟩) :=
  parse_never_incomplete.2.2 200 [5] (by decide) (by decide)

/-- C10: when `parse` fails on an unrecognized first byte, the input
carried inside the `Failure` error is the input advanced past the
consumed byte — the tail, which differs from the original input. -/
theorem parse_failure_input_advanced (b : Nat) (rest : List Nat)
    (h8 : 8 ≤ b) (_h255 : b ≤ 255) :
    parse (b :: rest) = .error (.Failure ⟨rest, .Fail⟩) ∧ rest ≠ b :: rest := by
  refine ⟨?_, ?_⟩
  · rw [parse_cons b rest, try_from_ge_eight b h8]
  · intro hEq
    exact absurd (congrArg List.length hEq) (by simp)

/-- Witness for C10 at the concrete buffer `[200, 7]`: the error holds
`[7]`, not `[200, 7]`. -/
theorem parse_failure_input_advanced_witness :
    parse [200, 7] = .error (.Failure ⟨[7], .Fail⟩) ∧ [7] ≠ [200, 7] :=
  parse_failure_input_advanced 200 [7] (by decide) (by decide)

end NotificationAttributeID

end Ancs
